import Mathlib

/-!
Verification of the ingestion pipeline of `streamlit_app.py`: identifier
cleaning, file-type detection, CSV parsing, column resolution, load
coercion and the per-file upload loop.

Strings are modelled as `List Char`.  The ASCII-relevant fragments of
Python's `str.strip`, `str.upper`, `str.lower`, `str.isdigit` and of the
regular expressions the app uses are embedded character by character;
pandas dtype inference is modelled on the cell shapes this pipeline
exercises (integer-looking text, empty fields, plain text).
-/

/-- Whitespace as Python's `str.strip` and the regex class `\s` treat it
(the ASCII range): space, tab, newline, carriage return, vertical tab and
form feed. -/
def isSpaceChar (c : Char) : Bool :=
  decide (c = ' ' ∨ c = '\t' ∨ c = '\n' ∨ c = '\r' ∨ c = '\x0b' ∨ c = '\x0c')

/-- The characters stripped by `clean_column_name`'s second substitution,
`re.sub` with the class listing `()[]{}.?/\'":;,!@#$%^&*` and backtick and
tilde.  Quote, apostrophe, backslash, braces and backtick are written via
`Char.ofNat` (34, 39, 92, 123, 125, 96). -/
def punctChars : List Char :=
  ['(', ')', '[', ']', Char.ofNat 123, Char.ofNat 125, '.', '?', '/',
   Char.ofNat 92, Char.ofNat 39, Char.ofNat 34, ':', ';', ',', '!', '@',
   '#', '$', '%', '^', '&', '*', Char.ofNat 96, '~']

/-- Membership in the stripped punctuation class. -/
def isPunctChar (c : Char) : Bool :=
  decide (c ∈ punctChars)

/-- Python `str.strip`: drop whitespace from both ends. -/
def pyStrip (l : List Char) : List Char :=
  ((l.dropWhile isSpaceChar).reverse.dropWhile isSpaceChar).reverse

/-- ASCII fragment of Python `str.upper`, one character at a time. -/
def upperChar (c : Char) : Char :=
  if 97 ≤ c.toNat ∧ c.toNat ≤ 122 then Char.ofNat (c.toNat - 32) else c

/-- ASCII fragment of Python `str.lower`, one character at a time. -/
def lowerChar (c : Char) : Char :=
  if 65 ≤ c.toNat ∧ c.toNat ≤ 90 then Char.ofNat (c.toNat + 32) else c

/-- `re.sub` with pattern `\s+|-` and replacement underscore: each maximal
run of whitespace and each single hyphen becomes one underscore.
`prevSpace` records that the previous character belonged to a whitespace
run already replaced. -/
def collapseWsAux : List Char → Bool → List Char
  | [], _ => []
  | c :: rest, prevSpace =>
    if isSpaceChar c then
      if prevSpace then collapseWsAux rest true
      else '_' :: collapseWsAux rest true
    else if c = '-' then '_' :: collapseWsAux rest false
    else c :: collapseWsAux rest false

/-- Whether the first character, when there is one, is not an ASCII digit. -/
def headNotDigit (l : List Char) : Bool :=
  match l with
  | [] => true
  | c :: _ => !c.isDigit

/-- The digit-leading rule shared by both cleaners: `if name and
name[0].isdigit(): name = underscore + name`. -/
def prefixDigit (l : List Char) : List Char :=
  match l with
  | [] => []
  | c :: rest => if c.isDigit then '_' :: c :: rest else c :: rest

/-- `clean_column_name` before its empty fallback: strip, uppercase,
collapse whitespace runs and hyphens to underscores, strip the punctuation
class, prepend an underscore before a leading digit. -/
def cleanColCore (name : List Char) : List Char :=
  prefixDigit
    ((collapseWsAux ((pyStrip name).map upperChar) false).filter
      (fun c => !isPunctChar c))

/-- `clean_column_name` of `streamlit_app.py`. -/
def clean_column_name (name : List Char) : List Char :=
  if cleanColCore name = [] then "UNNAMED_COLUMN".data else cleanColCore name

/-- A character kept unchanged by `clean_table_name`'s substitution: the
class `[A-Z0-9_]`. -/
def tableOkChar (c : Char) : Bool :=
  decide ((65 ≤ c.toNat ∧ c.toNat ≤ 90) ∨ (48 ≤ c.toNat ∧ c.toNat ≤ 57) ∨ c = '_')

/-- `clean_table_name` before its empty fallback: strip, uppercase, replace
every character outside `[A-Z0-9_]` by underscore, prepend an underscore
before a leading digit. -/
def cleanTabCore (name : List Char) : List Char :=
  prefixDigit
    (((pyStrip name).map upperChar).map (fun c => if tableOkChar c then c else '_'))

/-- `clean_table_name` of `streamlit_app.py`. -/
def clean_table_name (name : List Char) : List Char :=
  if cleanTabCore name = [] then "UNNAMED_TABLE".data else cleanTabCore name

/-- The recognized file kinds of `SUPPORTED_FILE_TYPES`. -/
inductive FileType
  | csv
  | txt
  | excel
deriving DecidableEq

/-- The extension `os.path.splitext` yields for a name without directory
separators: everything from the last dot on, unless every character before
that dot is itself a dot (leading dots never start an extension). -/
def splitextExt (l : List Char) : List Char :=
  let r := l.reverse
  let extRev := r.takeWhile (fun c => decide (c ≠ '.'))
  if extRev.length = r.length then []
  else if (r.drop (extRev.length + 1)).any (fun c => decide (c ≠ '.')) then
    '.' :: extRev.reverse
  else []

/-- The extension list built for the excel entry of `SUPPORTED_FILE_TYPES`:
when both decoders import, the second append passes the literal string
", .xls" (comma, space, dot, x, l, s), not ".xls". -/
def excelExtensions (ex xl : Bool) : List (List Char) :=
  (if ex then [".xlsx".data] else []) ++
    (if xl then [if ex then ", .xls".data else ".xls".data] else [])

/-- `SUPPORTED_FILE_TYPES` in insertion order, as a function of whether
`openpyxl` (`ex`) and `xlrd` (`xl`) imported. -/
def supportedFileTypes (ex xl : Bool) : List (FileType × List (List Char)) :=
  [(FileType.csv, [".csv".data]), (FileType.txt, [".txt".data])] ++
    (if ex || xl then [(FileType.excel, excelExtensions ex xl)] else [])

/-- `get_file_type`: lowercase the filename, split off the extension and
return the first configured type listing it; `None` otherwise. -/
def get_file_type (ex xl : Bool) (filename : List Char) : Option FileType :=
  let ext := splitextExt (filename.map lowerChar)
  (supportedFileTypes ex xl).findSome?
    (fun p => if ext ∈ p.2 then some p.1 else none)

/-- The CSV option record the app builds (`DEFAULT_CSV_OPTIONS` and
`current_csv_options` share this shape). -/
structure CsvOptions where
  field_delimiter : Char
  skip_header : Nat
  empty_field_as_null : Bool
  field_optionally_enclosed_by : Option Char
  trim_space : Bool

/-- `DEFAULT_CSV_OPTIONS`: comma delimiter, header row, double quote
(character 34), trim on. -/
def DEFAULT_CSV_OPTIONS : CsvOptions :=
  { field_delimiter := ','
    skip_header := 1
    empty_field_as_null := true
    field_optionally_enclosed_by := some (Char.ofNat 34)
    trim_space := true }

/-- The cell values this pipeline's DataFrames hold after pandas dtype
inference: int64 numbers, text, float NaN, pandas NA, Python None. -/
inductive PdCell
  | intCell (n : Int)
  | strCell (s : List Char)
  | nanCell
  | naCell
  | noneCell
deriving DecidableEq

/-- `astype(str)` on one cell: `str()` of the value. -/
def pdStr : PdCell → List Char
  | .intCell n => (toString n).data
  | .strCell s => s
  | .nanCell => "nan".data
  | .naCell => "<NA>".data
  | .noneCell => "None".data

/-- The replacement dict `df.replace` applies after `astype(str)`: exactly
the four strings "<NA>", "nan", "NaN" and "None" become the null marker;
every other string passes through. -/
def replaceNulls (s : List Char) : Option (List Char) :=
  if s = "<NA>".data ∨ s = "nan".data ∨ s = "NaN".data ∨ s = "None".data then
    none
  else some s

/-- The parsed tabular structure: column labels and rows of cells. -/
structure DataFrame where
  cols : List (List Char)
  rows : List (List PdCell)
deriving DecidableEq

/-- Decimal digits to a number (callers guarantee all-digit input). -/
def digitsToNat (l : List Char) : Nat :=
  l.foldl (fun a c => a * 10 + (c.toNat - 48)) 0

/-- The fragment of pandas dtype inference this pipeline exercises: an
integer-looking field becomes an int64 value, an empty unquoted field
becomes NaN, anything else stays text. -/
def inferCell (l : List Char) : PdCell :=
  match l with
  | [] => .nanCell
  | '-' :: rest =>
    if !rest.isEmpty && rest.all Char.isDigit then
      .intCell (-(Int.ofNat (digitsToNat rest)))
    else .strCell l
  | _ =>
    if l.all Char.isDigit then .intCell (Int.ofNat (digitsToNat l))
    else .strCell l

/-- One pass of the field splitter `pandas.read_csv` runs under the
arguments `read_file_to_dataframe` builds: `delimiter`, `quotechar`,
`escapechar` backslash, `skipinitialspace`.  `inQ`: inside a quoted
section; `atStart`: at the start of a field, where initial spaces are
skipped and a quote opens a section; `escNext`: the previous character was
the escape character. -/
def splitFieldsAux (delim : Char) (quote : Option Char) (skipInit : Bool) :
    List Char → Bool → Bool → Bool → List Char → List (List Char)
  | [], _, _, _, acc => [acc.reverse]
  | c :: rest, inQ, atStart, escNext, acc =>
    if escNext then
      splitFieldsAux delim quote skipInit rest inQ false false (c :: acc)
    else if inQ then
      if c = Char.ofNat 92 then
        splitFieldsAux delim quote skipInit rest true false true acc
      else if quote = some c then
        splitFieldsAux delim quote skipInit rest false false false acc
      else splitFieldsAux delim quote skipInit rest true false false (c :: acc)
    else if atStart = true ∧ skipInit = true ∧ c = ' ' then
      splitFieldsAux delim quote skipInit rest false true false acc
    else if atStart = true ∧ quote = some c then
      splitFieldsAux delim quote skipInit rest true false false acc
    else if c = delim then
      acc.reverse :: splitFieldsAux delim quote skipInit rest false true false []
    else if c = Char.ofNat 92 then
      splitFieldsAux delim quote skipInit rest false false true acc
    else splitFieldsAux delim quote skipInit rest false false false (c :: acc)

/-- Split one record into fields. -/
def splitFields (delim : Char) (quote : Option Char) (skipInit : Bool)
    (line : List Char) : List (List Char) :=
  splitFieldsAux delim quote skipInit line false true false []

/-- Split the byte content into newline-terminated records. -/
def splitLinesAux : List Char → List Char → List (List Char)
  | [], acc => [acc.reverse]
  | c :: rest, acc =>
    if c = '\n' then acc.reverse :: splitLinesAux rest []
    else splitLinesAux rest (c :: acc)

/-- `pandas.read_csv` under the argument set `read_file_to_dataframe`
builds: records split on newlines (blank records skipped, as pandas does by
default), fields split by `splitFields`, the first record used as the
header when `skip_header == 1` (otherwise positional integer labels), cell
values passed through dtype inference. -/
def readCsv (opts : CsvOptions) (content : List Char) : DataFrame :=
  let recs := (splitLinesAux content []).filter (fun r => decide (r ≠ []))
  let parseRec := fun (r : List Char) =>
    splitFields opts.field_delimiter opts.field_optionally_enclosed_by
      opts.trim_space r
  if opts.skip_header = 1 then
    match recs with
    | [] => { cols := [], rows := [] }
    | h :: rest =>
      { cols := parseRec h
        rows := rest.map (fun r => (parseRec r).map inferCell) }
  else
    { cols := (List.range (match recs with
        | [] => 0
        | h :: _ => (parseRec h).length)).map (fun i => (toString i).data)
      rows := recs.map (fun r => (parseRec r).map inferCell) }

/-- The failure `read_file_to_dataframe` raises when the kind is excel but
the decoder the filename needs did not import. -/
inductive ReadError
  | decoderUnavailable
deriving DecidableEq

/-- `read_file_to_dataframe`: dispatch on the detected kind.  The two Excel
decoders are external collaborators passed as functions; the `.xlsx` branch
needs `ex` (openpyxl), the `.xls` branch needs `xl` (xlrd), and otherwise
the excel kind fails with the decoder-unavailable error. -/
def read_file_to_dataframe (ex xl : Bool) (readXlsx readXls : List Char → DataFrame)
    (filename : List Char) (ftype : FileType) (fileBytes : List Char)
    (opts : CsvOptions) : Except ReadError DataFrame :=
  match ftype with
  | .excel =>
    if ".xlsx".data.isSuffixOf (filename.map lowerChar) = true ∧ ex = true then
      Except.ok (readXlsx fileBytes)
    else if ".xls".data.isSuffixOf (filename.map lowerChar) = true ∧ xl = true then
      Except.ok (readXls fileBytes)
    else Except.error ReadError.decoderUnavailable
  | .csv => Except.ok (readCsv opts fileBytes)
  | .txt => Except.ok (readCsv opts fileBytes)

/-- The per-file configuration record the upload loop consults. -/
structure FileConfig where
  table_name : List Char
  custom_columns : Option (List (List Char))

/-- Column resolution in the upload loop: overrides are used only when
their count matches the DataFrame's column count, otherwise the originals
are cleaned; whatever was chosen is then passed through
`clean_column_name` (so originals get cleaned twice). -/
def resolve_columns (cols : List (List Char))
    (custom : Option (List (List Char))) : List (List Char) :=
  let customNames :=
    match custom with
    | some cc => if cc.length = cols.length then cc else cols.map clean_column_name
    | none => cols.map clean_column_name
  customNames.map clean_column_name

/-- `df.astype(str)` followed by the null-token replacement, over the full
relation. -/
def coerce_for_load (df : DataFrame) : List (List (Option (List Char))) :=
  df.rows.map (fun r => r.map (fun c => replaceNulls (pdStr c)))

/-- pandas `df.empty`: an axis of length zero. -/
def dfEmpty (df : DataFrame) : Bool :=
  decide (df.rows.length = 0 ∨ df.cols.length = 0)

/-- The terminal status one file reaches in the upload loop. -/
inductive FileStatus
  | missingConfig
  | skippedEmpty
  | success (rows : Nat)
  | failed (msg : List Char)
deriving DecidableEq

/-- What one warehouse write receives: target table, resolved column
identifiers, coerced relation. -/
structure LoadRequest where
  table_name : List Char
  columns : List (List Char)
  relation : List (List (Option (List Char)))
deriving DecidableEq

/-- One file's outcome: its terminal status and the warehouse writes it
attempted. -/
structure ProcessResult where
  status : FileStatus
  writes : List LoadRequest
deriving DecidableEq

/-- Whether a result counts toward `successful_uploads`. -/
def isSuccess (r : ProcessResult) : Bool :=
  match r.status with
  | .success _ => true
  | _ => false

/-- One iteration of the upload loop: look up the configuration, take the
read outcome (`Except.error` stands for the exception the `try` catches),
skip empty frames before any write, resolve columns, coerce every cell and
hand the relation to the warehouse writer, an external collaborator passed
as a function. -/
def process_file (writeTable : LoadRequest → Except (List Char) Unit)
    (cfg : Option FileConfig) (readResult : Except (List Char) DataFrame) :
    ProcessResult :=
  match cfg with
  | none => { status := .missingConfig, writes := [] }
  | some config =>
    match readResult with
    | .error e => { status := .failed e, writes := [] }
    | .ok df =>
      if dfEmpty df then { status := .skippedEmpty, writes := [] }
      else
        let finalCols := resolve_columns df.cols config.custom_columns
        let req : LoadRequest :=
          { table_name := config.table_name
            columns := finalCols
            relation := coerce_for_load df }
        match writeTable req with
        | .ok _ => { status := .success df.rows.length, writes := [req] }
        | .error m => { status := .failed m, writes := [req] }

/-- The whole upload loop: files processed strictly in sequence, each
contributing exactly one `ProcessResult`; the second component is
`successful_uploads`, incremented only on success. -/
def upload_batch (writeTable : LoadRequest → Except (List Char) Unit)
    (files : List (Option FileConfig × Except (List Char) DataFrame)) :
    List ProcessResult × Nat :=
  files.foldl
    (fun acc f =>
      let r := process_file writeTable f.1 f.2
      (acc.1 ++ [r], acc.2 + (if isSuccess r then 1 else 0)))
    ([], 0)

/-- The invariant every character of a cleaned column identifier other than
the characters of the fallback token satisfies: not whitespace, not a
hyphen, not in the stripped punctuation class, fixed by ASCII uppercasing
(hence no lowercase ASCII letter). -/
def goodColChar (c : Char) : Bool :=
  decide (isSpaceChar c = false ∧ c ≠ '-' ∧ isPunctChar c = false ∧ upperChar c = c)

/-- The identifier shape claim C2 states, written from the spec's words
(the pattern listing an uppercase letter or underscore first and uppercase
letters, digits or underscores after), for comparison with the code's
actual behaviour. -/
def specColIdentPattern (l : List Char) : Bool :=
  match l with
  | [] => false
  | c :: rest =>
    decide ((65 ≤ c.toNat ∧ c.toNat ≤ 90) ∨ c = '_') &&
      rest.all (fun d =>
        decide ((65 ≤ d.toNat ∧ d.toNat ≤ 90) ∨ (48 ≤ d.toNat ∧ d.toNat ≤ 57) ∨ d = '_'))

theorem goodColChar_underscore : goodColChar '_' = true := by decide

/-- A code point below the surrogate range round-trips through
`Char.ofNat`. -/
theorem toNat_ofNat_valid (n : Nat) (h : n < 55296) : (Char.ofNat n).toNat = n := by
  rw [Char.ofNat, dif_pos (Or.inl h)]
  rfl

/-- ASCII uppercasing is idempotent. -/
theorem upperChar_upperChar (c : Char) : upperChar (upperChar c) = upperChar c := by
  unfold upperChar
  by_cases h : 97 ≤ c.toNat ∧ c.toNat ≤ 122
  · rw [if_pos h]
    have hv : (Char.ofNat (c.toNat - 32)).toNat = c.toNat - 32 :=
      toNat_ofNat_valid _ (by omega)
    rw [if_neg (by omega)]
  · rw [if_neg h, if_neg h]

/-- Every character the whitespace-and-hyphen substitution emits is an
underscore or a non-whitespace, non-hyphen character of the input. -/
theorem mem_collapseWsAux (l : List Char) :
    ∀ (b : Bool) (c : Char), c ∈ collapseWsAux l b →
      c = '_' ∨ (c ∈ l ∧ isSpaceChar c = false ∧ c ≠ '-') := by
  induction l with
  | nil => intro b c hc; simp [collapseWsAux] at hc
  | cons a rest ih =>
    intro b c hc
    by_cases ha : isSpaceChar a = true
    · by_cases hb : b = true
      · rw [collapseWsAux, if_pos ha, hb, if_pos rfl] at hc
        rcases ih true c hc with h | ⟨h1, h2, h3⟩
        · exact Or.inl h
        · exact Or.inr ⟨List.mem_cons_of_mem a h1, h2, h3⟩
      · rw [collapseWsAux, if_pos ha, if_neg hb] at hc
        rcases List.mem_cons.mp hc with h | h
        · exact Or.inl h
        · rcases ih true c h with h | ⟨h1, h2, h3⟩
          · exact Or.inl h
          · exact Or.inr ⟨List.mem_cons_of_mem a h1, h2, h3⟩
    · rw [collapseWsAux, if_neg ha] at hc
      by_cases hd : a = '-'
      · rw [if_pos hd] at hc
        rcases List.mem_cons.mp hc with h | h
        · exact Or.inl h
        · rcases ih false c h with h | ⟨h1, h2, h3⟩
          · exact Or.inl h
          · exact Or.inr ⟨List.mem_cons_of_mem a h1, h2, h3⟩
      · rw [if_neg hd] at hc
        rcases List.mem_cons.mp hc with h | h
        · subst h
          exact Or.inr ⟨List.mem_cons_self _ _, Bool.not_eq_true _ ▸ ha, hd⟩
        · rcases ih false c h with h | ⟨h1, h2, h3⟩
          · exact Or.inl h
          · exact Or.inr ⟨List.mem_cons_of_mem a h1, h2, h3⟩

/-- The substitution leaves a string without whitespace or hyphens
unchanged. -/
theorem collapseWsAux_eq_self (l : List Char)
    (h : ∀ c ∈ l, isSpaceChar c = false ∧ c ≠ '-') : collapseWsAux l false = l := by
  induction l with
  | nil => rfl
  | cons a rest ih =>
    have ha := h a (List.mem_cons_self _ _)
    rw [collapseWsAux, if_neg (by simp [ha.1]), if_neg ha.2]
    exact congrArg _ (ih fun c hc => h c (List.mem_cons_of_mem a hc))

/-- Dropping leading whitespace leaves a whitespace-free string
unchanged. -/
theorem dropWhile_space_eq_self (l : List Char)
    (h : ∀ c ∈ l, isSpaceChar c = false) : l.dropWhile isSpaceChar = l := by
  cases l with
  | nil => rfl
  | cons a rest =>
    rw [List.dropWhile_cons, if_neg (by simp [h a (List.mem_cons_self _ _)])]

/-- Stripping leaves a whitespace-free string unchanged. -/
theorem pyStrip_eq_self (l : List Char)
    (h : ∀ c ∈ l, isSpaceChar c = false) : pyStrip l = l := by
  unfold pyStrip
  rw [dropWhile_space_eq_self l h,
    dropWhile_space_eq_self l.reverse (fun c hc => h c (List.mem_reverse.mp hc)),
    List.reverse_reverse]

/-- Mapping a function that fixes every member leaves a list
unchanged. -/
theorem map_eq_self_of_mem {f : Char → Char} {l : List Char}
    (h : ∀ c ∈ l, f c = c) : l.map f = l := by
  induction l with
  | nil => rfl
  | cons a rest ih =>
    rw [List.map_cons, h a (List.mem_cons_self _ _),
      ih fun c hc => h c (List.mem_cons_of_mem a hc)]

/-- Every character of the cleaner's core output satisfies the cleaned
invariant. -/
theorem cleanColCore_mem (name : List Char) :
    ∀ c ∈ cleanColCore name, goodColChar c = true := by
  intro c hc
  unfold cleanColCore at hc
  have hmem : c = '_' ∨
      c ∈ (collapseWsAux ((pyStrip name).map upperChar) false).filter
        (fun c => !isPunctChar c) := by
    cases hfilter : (collapseWsAux ((pyStrip name).map upperChar) false).filter
        (fun c => !isPunctChar c) with
    | nil => rw [hfilter] at hc; simp [prefixDigit] at hc
    | cons a rest =>
      rw [hfilter, prefixDigit] at hc
      by_cases hd : a.isDigit
      · rw [if_pos hd] at hc
        rcases List.mem_cons.mp hc with h | h
        · exact Or.inl h
        · exact Or.inr (hfilter ▸ h)
      · rw [if_neg hd] at hc
        exact Or.inr (hfilter ▸ hc)
  rcases hmem with rfl | hmem
  · exact goodColChar_underscore
  · have h1 := List.mem_filter.mp hmem
    have h2 := mem_collapseWsAux _ false c h1.1
    have hpunct : isPunctChar c = false := by
      have := h1.2
      simpa using this
    rcases h2 with rfl | ⟨hin, hsp, hhy⟩
    · exact goodColChar_underscore
    · have hup : upperChar c = c := by
        rcases List.mem_map.mp hin with ⟨x, _, rfl⟩
        exact upperChar_upperChar x
      simp only [goodColChar, decide_eq_true_eq]
      exact ⟨hsp, hhy, hpunct, hup⟩

/-- The cleaner's core output never starts with a digit. -/
theorem cleanColCore_headNotDigit (name : List Char) :
    headNotDigit (cleanColCore name) = true := by
  unfold cleanColCore
  cases hl : (collapseWsAux ((pyStrip name).map upperChar) false).filter
      (fun c => !isPunctChar c) with
  | nil => rfl
  | cons a rest =>
    by_cases hd : a.isDigit
    · simp [prefixDigit, hd, headNotDigit]
    · simp [prefixDigit, hd, headNotDigit]

/-- The cleaned column identifier is non-empty, all its characters
satisfy the cleaned invariant, and it never starts with a digit. -/
theorem clean_column_name_props (name : List Char) :
    clean_column_name name ≠ [] ∧
      (∀ c ∈ clean_column_name name, goodColChar c = true) ∧
      headNotDigit (clean_column_name name) = true := by
  unfold clean_column_name
  by_cases h : cleanColCore name = []
  · rw [if_pos h]
    refine ⟨by decide, ?_, by decide⟩
    decide
  · rw [if_neg h]
    exact ⟨h, cleanColCore_mem name, cleanColCore_headNotDigit name⟩

/-- The cleaner's core fixes strings already satisfying the cleaned
invariant. -/
theorem cleanColCore_fixed (l : List Char)
    (hall : ∀ c ∈ l, goodColChar c = true)
    (hhead : headNotDigit l = true) : cleanColCore l = l := by
  have hprops : ∀ c ∈ l, isSpaceChar c = false ∧ c ≠ '-' ∧
      isPunctChar c = false ∧ upperChar c = c := by
    intro c hc
    have := hall c hc
    simpa [goodColChar, decide_eq_true_eq] using this
  unfold cleanColCore
  rw [pyStrip_eq_self l (fun c hc => (hprops c hc).1),
    map_eq_self_of_mem (fun c hc => (hprops c hc).2.2.2),
    collapseWsAux_eq_self l (fun c hc => ⟨(hprops c hc).1, (hprops c hc).2.1⟩),
    List.filter_eq_self.mpr (fun c hc => by simp [(hprops c hc).2.2.1])]
  cases l with
  | nil => rfl
  | cons a rest =>
    have : a.isDigit = false := by simpa [headNotDigit] using hhead
    simp [prefixDigit, this]

/-- The column cleaner fixes non-empty strings already satisfying the
cleaned invariant. -/
theorem clean_column_name_fixed (l : List Char) (hne : l ≠ [])
    (hall : ∀ c ∈ l, goodColChar c = true)
    (hhead : headNotDigit l = true) : clean_column_name l = l := by
  unfold clean_column_name
  rw [cleanColCore_fixed l hall hhead, if_neg hne]

/-- The column cleaner is idempotent. -/
theorem clean_column_name_idem (l : List Char) :
    clean_column_name (clean_column_name l) = clean_column_name l := by
  obtain ⟨h1, h2, h3⟩ := clean_column_name_props l
  exact clean_column_name_fixed _ h1 h2 h3

/-- A character of the table-identifier alphabet is not whitespace. -/
theorem tableOk_not_space (c : Char) (h : tableOkChar c = true) :
    isSpaceChar c = false := by
  simp only [tableOkChar, decide_eq_true_eq] at h
  simp only [isSpaceChar, decide_eq_false_iff_not]
  rintro (rfl | rfl | rfl | rfl | rfl | rfl) <;> exact absurd h (by decide)

/-- A character of the table-identifier alphabet is fixed by
uppercasing. -/
theorem tableOk_upperChar (c : Char) (h : tableOkChar c = true) :
    upperChar c = c := by
  simp only [tableOkChar, decide_eq_true_eq] at h
  have hP : ¬(97 ≤ c.toNat ∧ c.toNat ≤ 122) := by
    rcases h with h | h | rfl
    · omega
    · omega
    · decide
  simp [upperChar, hP]

/-- Every character of the table cleaner's core output lies in the
table-identifier alphabet. -/
theorem cleanTabCore_mem (name : List Char) :
    ∀ c ∈ cleanTabCore name, tableOkChar c = true := by
  intro c hc
  unfold cleanTabCore at hc
  have hmem : c = '_' ∨
      c ∈ ((pyStrip name).map upperChar).map (fun c => if tableOkChar c then c else '_') := by
    cases hl : ((pyStrip name).map upperChar).map (fun c => if tableOkChar c then c else '_') with
    | nil => rw [hl] at hc; simp [prefixDigit] at hc
    | cons a rest =>
      rw [hl, prefixDigit] at hc
      by_cases hd : a.isDigit
      · rw [if_pos hd] at hc
        rcases List.mem_cons.mp hc with h | h
        · exact Or.inl h
        · exact Or.inr (hl ▸ h)
      · rw [if_neg hd] at hc
        exact Or.inr (hl ▸ hc)
  rcases hmem with rfl | hmem
  · decide
  · rcases List.mem_map.mp hmem with ⟨x, _, rfl⟩
    by_cases hx : tableOkChar x = true
    · rw [if_pos hx]; exact hx
    · rw [if_neg hx]; decide

/-- The table cleaner's core output never starts with a digit. -/
theorem cleanTabCore_headNotDigit (name : List Char) :
    headNotDigit (cleanTabCore name) = true := by
  unfold cleanTabCore
  cases hl : ((pyStrip name).map upperChar).map (fun c => if tableOkChar c then c else '_') with
  | nil => rfl
  | cons a rest =>
    by_cases hd : a.isDigit
    · simp [prefixDigit, hd, headNotDigit]
    · simp [prefixDigit, hd, headNotDigit]

/-- The cleaned table identifier is non-empty, keeps to the
table-identifier alphabet, and never starts with a digit. -/
theorem clean_table_name_props (name : List Char) :
    clean_table_name name ≠ [] ∧
      (∀ c ∈ clean_table_name name, tableOkChar c = true) ∧
      headNotDigit (clean_table_name name) = true := by
  unfold clean_table_name
  by_cases h : cleanTabCore name = []
  · rw [if_pos h]
    exact ⟨by decide, by decide, by decide⟩
  · rw [if_neg h]
    exact ⟨h, cleanTabCore_mem name, cleanTabCore_headNotDigit name⟩

/-- The table cleaner's core fixes strings in the table-identifier
alphabet. -/
theorem cleanTabCore_fixed (l : List Char)
    (hall : ∀ c ∈ l, tableOkChar c = true)
    (hhead : headNotDigit l = true) : cleanTabCore l = l := by
  unfold cleanTabCore
  rw [pyStrip_eq_self l (fun c hc => tableOk_not_space c (hall c hc)),
    map_eq_self_of_mem (fun c hc => tableOk_upperChar c (hall c hc)),
    map_eq_self_of_mem (fun c hc => by rw [if_pos (hall c hc)])]
  cases l with
  | nil => rfl
  | cons a rest =>
    have : a.isDigit = false := by simpa [headNotDigit] using hhead
    simp [prefixDigit, this]

/-- The table cleaner fixes non-empty strings in the table-identifier
alphabet that do not start with a digit. -/
theorem clean_table_name_fixed (l : List Char) (hne : l ≠ [])
    (hall : ∀ c ∈ l, tableOkChar c = true)
    (hhead : headNotDigit l = true) : clean_table_name l = l := by
  unfold clean_table_name
  rw [cleanTabCore_fixed l hall hhead, if_neg hne]

/-- The table cleaner is idempotent. -/
theorem clean_table_name_idem (l : List Char) :
    clean_table_name (clean_table_name l) = clean_table_name l := by
  obtain ⟨h1, h2, h3⟩ := clean_table_name_props l
  exact clean_table_name_fixed _ h1 h2 h3

/-- C1: both identifier cleaners are idempotent under re-cleaning —
`clean_column_name` and `clean_table_name` applied to their own output
return it unchanged, for every input string. -/
theorem claim_C1_clean_idempotent :
    ∀ l : List Char,
      clean_column_name (clean_column_name l) = clean_column_name l ∧
        clean_table_name (clean_table_name l) = clean_table_name l :=
  fun l => ⟨clean_column_name_idem l, clean_table_name_idem l⟩

/-- C2 as stated fails on the code: cleaning the one-character string of
an equals sign returns that same string, which neither matches the claimed
shape (uppercase letter or underscore first, then uppercase letters, digits
or underscores) nor equals UNNAMED_COLUMN — the stripped punctuation class
does not cover every character outside the identifier alphabet. -/
theorem claim_C2_counterexample :
    clean_column_name ("=".data) = "=".data ∧
      specColIdentPattern (clean_column_name ("=".data)) = false ∧
      clean_column_name ("=".data) ≠ "UNNAMED_COLUMN".data := by
  decide

/-- C2 amended: the cleaned column identifier is always non-empty, never
starts with an ASCII digit, and contains no whitespace, no hyphen, no
character of the stripped punctuation class and no lowercase ASCII letter;
characters outside the identifier alphabet that escape those classes (such
as the equals sign) pass through, so the claimed regular-expression shape
does not hold in general. -/
theorem claim_C2_amended :
    ∀ name : List Char,
      clean_column_name name ≠ [] ∧
        (∀ c ∈ clean_column_name name, goodColChar c = true) ∧
        headNotDigit (clean_column_name name) = true :=
  clean_column_name_props

/-- C3: parsing the CSV bytes with header Name,Age and rows Ann,30 and
Bo,41 under the default options yields original column names Name and Age,
two rows, final cleaned identifiers NAME and AGE, and a coerced relation
holding exactly the original cell texts with no null marker introduced. -/
theorem claim_C3_csv_roundtrip :
    (readCsv DEFAULT_CSV_OPTIONS ("Name,Age\nAnn,30\nBo,41".data)).cols
        = ["Name".data, "Age".data] ∧
      (readCsv DEFAULT_CSV_OPTIONS ("Name,Age\nAnn,30\nBo,41".data)).rows.length = 2 ∧
      resolve_columns (readCsv DEFAULT_CSV_OPTIONS ("Name,Age\nAnn,30\nBo,41".data)).cols
          none = ["NAME".data, "AGE".data] ∧
      coerce_for_load (readCsv DEFAULT_CSV_OPTIONS ("Name,Age\nAnn,30\nBo,41".data))
        = [[some ("Ann".data), some ("30".data)],
           [some ("Bo".data), some ("41".data)]] := by
  decide

/-- C4: the code contradicts the claim at one decoder combination.  With
both decoders available, an .xls file is not recognized (the extension
table holds the literal string comma-space-dot-x-l-s instead of .xls), even
though the xls decoder is available; with only xlrd present the same file
is recognized as excel, and data.CSV is recognized as csv. -/
theorem claim_C4_xls_gap :
    get_file_type true true ("report.xls".data) = none ∧
      get_file_type false true ("report.xls".data) = some FileType.excel ∧
      get_file_type true true ("data.CSV".data) = some FileType.csv ∧
      excelExtensions true true = [".xlsx".data, ", .xls".data] := by
  decide

/-- C5 as stated fails on the code: with the xlsx decoder unavailable (and
the xls decoder present), an .xlsx file is not recognized as the excel kind
— `get_file_type` returns none, i.e. the unrecognized outcome. -/
theorem claim_C5_counterexample :
    get_file_type false true ("report.xlsx".data) = none := by
  decide

/-- Whitespace-free characters before a blocker pass straight through
`takeWhile` over an append. -/
theorem takeWhile_append_of_all {p : Char → Bool} (l1 l2 : List Char)
    (h1 : ∀ c ∈ l1, p c = true) :
    (l1 ++ l2).takeWhile p = l1 ++ l2.takeWhile p := by
  induction l1 with
  | nil => simp
  | cons a t ih =>
    rw [List.cons_append, List.takeWhile_cons_of_pos (h1 a (List.mem_cons_self _ _)),
      ih (fun c hc => h1 c (List.mem_cons_of_mem a hc)), List.cons_append]

/-- For any name shaped stem-dot-body with a dot-free body, the extension
`os.path.splitext` yields is either empty (the stem holds no character
other than dots) or the dot and the body. -/
theorem splitextExt_append (stem ebody : List Char)
    (hb : ∀ c ∈ ebody, decide (c ≠ '.') = true) :
    splitextExt (stem ++ '.' :: ebody) = [] ∨
      splitextExt (stem ++ '.' :: ebody) = '.' :: ebody := by
  have h1 : ((stem ++ '.' :: ebody).reverse).takeWhile (fun c => decide (c ≠ '.'))
      = ebody.reverse := by
    rw [List.reverse_append, List.reverse_cons, List.append_assoc,
      takeWhile_append_of_all _ _ (fun c hc => hb c (List.mem_reverse.mp hc)),
      List.singleton_append, List.takeWhile_cons_of_neg (by decide), List.append_nil]
  have hlen : (ebody.reverse).length ≠ ((stem ++ '.' :: ebody).reverse).length := by
    simp only [List.length_reverse, List.length_append, List.length_cons]
    omega
  have hdrop : ((stem ++ '.' :: ebody).reverse).drop ((ebody.reverse).length + 1)
      = stem.reverse := by
    have hsh : (ebody.reverse).length + 1 = (ebody.reverse ++ ['.']).length := by
      simp
    rw [List.reverse_append, List.reverse_cons, hsh, List.drop_left]
  simp only [splitextExt]
  rw [h1, if_neg hlen, hdrop]
  by_cases hany : (stem.reverse).any (fun c => decide (c ≠ '.')) = true
  · rw [if_pos hany, List.reverse_reverse]
    exact Or.inr rfl
  · rw [if_neg hany]
    exact Or.inl rfl

/-- A name ending in the five-character xlsx extension does not end in the
four-character xls extension. -/
theorem xls_not_suffix (l : List Char) :
    ".xls".data.isSuffixOf (l ++ ".xlsx".data) = false := by
  rw [List.isSuffixOf, List.reverse_append]
  rfl

/-- A name ending in the xls extension does not end in the xlsx
extension. -/
theorem xlsx_not_suffix (l : List Char) :
    ".xlsx".data.isSuffixOf (l ++ ".xls".data) = false := by
  rw [List.isSuffixOf, List.reverse_append]
  rfl

/-- Without openpyxl, every filename ending in .xlsx is unrecognized,
whatever the xlrd state. -/
theorem get_file_type_stem_xlsx (xl : Bool) (stem : List Char) :
    get_file_type false xl (stem ++ ".xlsx".data) = none := by
  have hmap : (stem ++ ".xlsx".data).map lowerChar
      = stem.map lowerChar ++ '.' :: "xlsx".data := by
    rw [List.map_append]
    rfl
  simp only [get_file_type]
  rw [hmap]
  rcases splitextExt_append (stem.map lowerChar) ("xlsx".data) (by decide) with h | h
  · rw [h]
    cases xl <;> decide
  · rw [h]
    cases xl <;> decide

/-- Without xlrd, every filename ending in .xls is unrecognized, whatever
the openpyxl state. -/
theorem get_file_type_stem_xls (ex : Bool) (stem : List Char) :
    get_file_type ex false (stem ++ ".xls".data) = none := by
  have hmap : (stem ++ ".xls".data).map lowerChar
      = stem.map lowerChar ++ '.' :: "xls".data := by
    rw [List.map_append]
    rfl
  simp only [get_file_type]
  rw [hmap]
  rcases splitextExt_append (stem.map lowerChar) ("xls".data) (by decide) with h | h
  · rw [h]
    cases ex <;> decide
  · rw [h]
    cases ex <;> decide

/-- Forcing the excel kind on a .xlsx filename without openpyxl raises the
decoder-unavailable error. -/
theorem read_stem_xlsx (xl : Bool) (rx rxs : List Char → DataFrame)
    (fb stem : List Char) (opts : CsvOptions) :
    read_file_to_dataframe false xl rx rxs (stem ++ ".xlsx".data)
        FileType.excel fb opts = Except.error ReadError.decoderUnavailable := by
  have hmap : (stem ++ ".xlsx".data).map lowerChar
      = stem.map lowerChar ++ ".xlsx".data := by
    rw [List.map_append]
    rfl
  have hc1 : ¬ (".xlsx".data.isSuffixOf ((stem ++ ".xlsx".data).map lowerChar) = true ∧
      false = true) := fun h => by cases h.2
  have hc2 : ¬ (".xls".data.isSuffixOf ((stem ++ ".xlsx".data).map lowerChar) = true ∧
      xl = true) := by
    intro h
    rw [hmap, xls_not_suffix] at h
    exact Bool.false_ne_true h.1
  simp only [read_file_to_dataframe]
  rw [if_neg hc1, if_neg hc2]

/-- Forcing the excel kind on a .xls filename without xlrd raises the
decoder-unavailable error. -/
theorem read_stem_xls (ex : Bool) (rx rxs : List Char → DataFrame)
    (fb stem : List Char) (opts : CsvOptions) :
    read_file_to_dataframe ex false rx rxs (stem ++ ".xls".data)
        FileType.excel fb opts = Except.error ReadError.decoderUnavailable := by
  have hmap : (stem ++ ".xls".data).map lowerChar
      = stem.map lowerChar ++ ".xls".data := by
    rw [List.map_append]
    rfl
  have hc1 : ¬ (".xlsx".data.isSuffixOf ((stem ++ ".xls".data).map lowerChar) = true ∧
      ex = true) := by
    intro h
    rw [hmap, xlsx_not_suffix] at h
    exact Bool.false_ne_true h.1
  have hc2 : ¬ (".xls".data.isSuffixOf ((stem ++ ".xls".data).map lowerChar) = true ∧
      false = true) := fun h => by cases h.2
  simp only [read_file_to_dataframe]
  rw [if_neg hc1, if_neg hc2]

/-- C5 amended: for every filename ending in .xlsx when the xlsx decoder
is unavailable — and likewise every filename ending in .xls without the
xls decoder — the file is classified as unrecognized (whatever the other
decoder's state), because the extension table registers only extensions
whose decoder imported; the distinct decoder-unavailable failure arises
only if the parse is invoked with the excel kind anyway, and then it does
arise for every such filename. -/
theorem claim_C5_amended :
    ∀ (ex xl : Bool) (readXlsx readXls : List Char → DataFrame)
      (fileBytes stem : List Char) (opts : CsvOptions),
      (get_file_type false xl (stem ++ ".xlsx".data) = none ∧
        read_file_to_dataframe false xl readXlsx readXls (stem ++ ".xlsx".data)
          FileType.excel fileBytes opts = Except.error ReadError.decoderUnavailable) ∧
      (get_file_type ex false (stem ++ ".xls".data) = none ∧
        read_file_to_dataframe ex false readXlsx readXls (stem ++ ".xls".data)
          FileType.excel fileBytes opts = Except.error ReadError.decoderUnavailable) :=
  fun ex xl rx rxs fb stem opts =>
    ⟨⟨get_file_type_stem_xlsx xl stem, read_stem_xlsx xl rx rxs fb stem opts⟩,
      ⟨get_file_type_stem_xls ex stem, read_stem_xls ex rx rxs fb stem opts⟩⟩

/-- C6: column resolution is a total function that keeps the column
count: overrides whose count matches the original column count are each
passed through `clean_column_name`; mismatched or absent overrides are
discarded and the original names are cleaned instead. -/
theorem claim_C6_resolve_columns :
    ∀ (cols : List (List Char)) (custom : Option (List (List Char))),
      (resolve_columns cols custom).length = cols.length ∧
        (∀ cc, custom = some cc → cc.length = cols.length →
          resolve_columns cols custom = cc.map clean_column_name) ∧
        (∀ cc, custom = some cc → cc.length ≠ cols.length →
          resolve_columns cols custom = cols.map clean_column_name) ∧
        (custom = none → resolve_columns cols custom = cols.map clean_column_name) := by
  intro cols custom
  have hdouble : (cols.map clean_column_name).map clean_column_name
      = cols.map clean_column_name := by
    induction cols with
    | nil => rfl
    | cons a t ih => simp only [List.map_cons, ih, clean_column_name_idem]
  refine ⟨?_, ?_, ?_, ?_⟩
  · rcases custom with _ | cc
    · simp [resolve_columns]
    · by_cases h : cc.length = cols.length
      · simp [resolve_columns, h]
      · simp [resolve_columns, h]
  · rintro cc rfl h
    simp [resolve_columns, h]
  · rintro cc rfl h
    simp only [resolve_columns, if_neg h]
    exact hdouble
  · rintro rfl
    simp only [resolve_columns]
    exact hdouble

/-- C6 witness: two overrides against one column fall back to the cleaned
original, with output length one. -/
theorem claim_C6_witness :
    (resolve_columns [("a".data)] (some [("b c".data), ("d".data)])).length = 1 ∧
      resolve_columns [("a".data)] (some [("b c".data), ("d".data)])
        = [("a".data)].map clean_column_name := by
  have h := claim_C6_resolve_columns [("a".data)] (some [("b c".data), ("d".data)])
  exact ⟨h.1, h.2.2.1 _ rfl (by decide)⟩

/-- C7: whenever the read succeeds with zero rows, the file's terminal
status is the distinct skipped-empty outcome and no warehouse write is
attempted for it. -/
theorem claim_C7_empty_skipped :
    ∀ (writeTable : LoadRequest → Except (List Char) Unit) (config : FileConfig)
      (df : DataFrame), df.rows = [] →
      process_file writeTable (some config) (Except.ok df)
        = { status := FileStatus.skippedEmpty, writes := [] } := by
  intro w config df h
  simp [process_file, dfEmpty, h]

/-- C7 witness: a configured file whose frame has one column and zero
rows is skipped as empty with no write attempted. -/
theorem claim_C7_witness :
    process_file (fun _ => Except.ok ())
        (some { table_name := "T".data, custom_columns := none })
        (Except.ok { cols := [("A".data)], rows := [] })
      = { status := FileStatus.skippedEmpty, writes := [] } :=
  claim_C7_empty_skipped (fun _ => Except.ok ())
    { table_name := "T".data, custom_columns := none }
    { cols := [("A".data)], rows := [] } rfl

/-- The upload loop's fold, for any starting accumulator: results append
in file order and the success counter adds the number of successes. -/
theorem upload_batch_foldl
    (writeTable : LoadRequest → Except (List Char) Unit)
    (files : List (Option FileConfig × Except (List Char) DataFrame)) :
    ∀ acc : List ProcessResult × Nat,
      files.foldl
        (fun acc f =>
          let r := process_file writeTable f.1 f.2
          (acc.1 ++ [r], acc.2 + (if isSuccess r then 1 else 0))) acc
        = (acc.1 ++ files.map (fun f => process_file writeTable f.1 f.2),
            acc.2 + ((files.map (fun f => process_file writeTable f.1 f.2)).filter
              isSuccess).length) := by
  induction files with
  | nil => intro acc; simp
  | cons f fs ih =>
    intro acc
    simp only [List.foldl_cons, List.map_cons, List.filter_cons]
    rw [ih]
    by_cases h : isSuccess (process_file writeTable f.1 f.2) = true
    · simp [h, List.append_assoc]
      omega
    · simp [h, List.append_assoc]

/-- C8: each file of a batch yields exactly one result, computed
independently from that file's own configuration and read outcome (so an
error in one file never aborts the rest), the result list has one entry per
file in order, and the batch counter aggregates exactly the successes. -/
theorem claim_C8_batch_independence :
    ∀ (writeTable : LoadRequest → Except (List Char) Unit)
      (files : List (Option FileConfig × Except (List Char) DataFrame)),
      (upload_batch writeTable files).1
          = files.map (fun f => process_file writeTable f.1 f.2) ∧
        (upload_batch writeTable files).1.length = files.length ∧
        (upload_batch writeTable files).2
          = ((upload_batch writeTable files).1.filter isSuccess).length := by
  intro w files
  have h : upload_batch w files
      = (files.map (fun f => process_file w f.1 f.2),
          ((files.map (fun f => process_file w f.1 f.2)).filter isSuccess).length) := by
    unfold upload_batch
    rw [upload_batch_foldl w files ([], 0)]
    simp
  refine ⟨by rw [h], by rw [h]; simp, by rw [h]⟩

/-- C9: load coercion stringifies every cell, and a cell holding the
float NaN or the pandas NA marker lands in the coerced relation as the null
marker, not as the text nan or the angle-bracketed NA. -/
theorem claim_C9_null_markers :
    ∀ (df : DataFrame) (i j : Nat) (row : List PdCell) (cell : PdCell),
      df.rows[i]? = some row → row[j]? = some cell →
      (cell = PdCell.nanCell ∨ cell = PdCell.naCell) →
      (coerce_for_load df)[i]?
          = some (row.map (fun c => replaceNulls (pdStr c))) ∧
        (row.map (fun c => replaceNulls (pdStr c)))[j]? = some none := by
  intro df i j row cell h1 h2 h3
  constructor
  · unfold coerce_for_load
    rw [List.getElem?_map, h1]
    rfl
  · rw [List.getElem?_map, h2]
    rcases h3 with rfl | rfl <;> rfl

/-- C9 witness: a one-cell NaN frame coerces its cell to the null
marker. -/
theorem claim_C9_witness :
    (coerce_for_load { cols := [("A".data)], rows := [[PdCell.nanCell]] })[0]?
        = some ([PdCell.nanCell].map (fun c => replaceNulls (pdStr c))) ∧
      ([PdCell.nanCell].map (fun c => replaceNulls (pdStr c)))[0]? = some none :=
  claim_C9_null_markers { cols := [("A".data)], rows := [[PdCell.nanCell]] } 0 0
    [PdCell.nanCell] PdCell.nanCell rfl rfl (Or.inl rfl)

/-- C10: the replacement maps a stringified cell to null exactly when it
equals one of the four case-sensitive strings angle-bracketed NA, nan, NaN
and None; a genuine text cell reading None is lost to null, while NULL, NAN
and the empty string pass through as text. -/
theorem claim_C10_null_token_set :
    ∀ s : List Char,
      (replaceNulls s = none ↔
        (s = "<NA>".data ∨ s = "nan".data ∨ s = "NaN".data ∨ s = "None".data)) ∧
        replaceNulls (pdStr (PdCell.strCell ("None".data))) = none ∧
        replaceNulls ("NULL".data) = some ("NULL".data) ∧
        replaceNulls ("NAN".data) = some ("NAN".data) ∧
        replaceNulls [] = some [] := by
  intro s
  refine ⟨?_, by decide, by decide, by decide, by decide⟩
  unfold replaceNulls
  split_ifs with h
  · simp [h]
  · simp [h]
